import Mathlib

/-!
Verification of the AnimTycoon production-simulation core against its
natural-language specification.

The development shallowly embeds the Python sources:
  - production_params.py : BusinessCalendar (is_workday, next_workday)
  - resource_pool.py     : Resource (is_available, assign_work),
                           ResourcePool (add_resource, allocate_resource,
                           get_utilization)
  - simulator.py         : AnimSimulator (process_asset, resolve_conflict, run)
                           on top of a simpy-style cooperative scheduler.

Conventions of the embedding:
  - Python datetimes are rationals counting days since an epoch that falls on
    a Monday at midnight; timedelta(days = x) is addition of x, and
    (a - b).total_seconds() is (a - b) * 86400.
  - datetime.weekday() is the floor of the day number modulo 7 (0 = Monday).
  - Python dicts keyed by dates / strings are association lists with
    overwrite-in-place update, which preserves insertion order exactly as
    CPython dicts do.
  - Effort hours are naturals (every hour literal in the repository is a
    non-negative integer).
  - Mutable heap objects (the Resource instances shared between the id index
    and the type index of a ResourcePool) are cells of an explicit store,
    addressed by allocation order; both indices hold cell addresses, so
    aliasing behaves as in the source.
  - Exceptions (ValueError in Resource.assign_work) become Option results.
-/

namespace AnimTycoon

/-- Lookup in a Python-dict-like association list: the value of the first
(and, by construction, only) entry with the given key. -/
def dictGet {α β : Type _} [DecidableEq α] (k : α) : List (α × β) → Option β
  | [] => none
  | (k2, v) :: rest => if k2 = k then some v else dictGet k rest

/-- Update in a Python-dict-like association list: overwrite the entry in
place if the key is present (keeping its position, as CPython dicts do),
otherwise append the new entry at the end. -/
def dictSet {α β : Type _} [DecidableEq α] (k : α) (v : β) : List (α × β) → List (α × β)
  | [] => [(k, v)]
  | (k2, v2) :: rest => if k2 = k then (k, v) :: rest else (k2, v2) :: dictSet k v rest

/-- Simulated dates and times: rationals counting days since a Monday epoch. -/
abbrev Date := ℚ

/-- Embedding of Python datetime.weekday(): 0 = Monday ... 6 = Sunday,
for a day count measured from a Monday epoch. -/
def pyWeekday (d : Date) : ℤ := (⌊d⌋ : ℤ) % 7

/-- BusinessCalendar from production_params.py: weekly work-day pattern,
holiday set and vacation intervals. -/
structure BusinessCalendar where
  name : String
  work_days : List ℤ
  holidays : List Date
  vacations : List (Date × Date)
deriving DecidableEq

/-- BusinessCalendar.is_workday: the weekday is in work_days, the date is not
a holiday, and the date lies in no vacation interval. -/
def BusinessCalendar.is_workday (c : BusinessCalendar) (d : Date) : Bool :=
  (c.work_days.any fun w => decide (w = pyWeekday d)) &&
  !(c.holidays.any fun x => decide (x = d)) &&
  !(c.vacations.any fun iv => decide (iv.1 ≤ d) && decide (d ≤ iv.2))

/-- BusinessCalendar.next_workday, with an explicit iteration budget standing
for the unbounded Python while loop: the source scans forward one day at a
time with no cap, so the embedding returns none exactly when the budget runs
out before a workday is found. -/
def nextWorkdayAux (c : BusinessCalendar) : ℕ → Date → Option Date
  | 0, _ => none
  | fuel + 1, nd => if c.is_workday nd then some nd else nextWorkdayAux c fuel (nd + 1)

/-- BusinessCalendar.next_workday: starts scanning at the day after the
input. -/
def BusinessCalendar.next_workday (c : BusinessCalendar) (d : Date) (fuel : ℕ) : Option Date :=
  nextWorkdayAux c fuel (d + 1)

/-- Resource from resource_pool.py. assigned_hours maps a date to the hours
committed on it; vacations are the resource's own intervals, distinct from
the calendar's. -/
structure Resource where
  name : String
  resource_type : String
  calendar : BusinessCalendar
  assigned_hours : List (Date × ℕ)
  vacations : List (Date × Date)
deriving DecidableEq

/-- Resource(name, resource_type, calendar): fresh resource with no assigned
hours and no vacations. -/
def newResource (name resource_type : String) (cal : BusinessCalendar) : Resource :=
  ⟨name, resource_type, cal, [], []⟩

/-- The dict lookup self.assigned_hours.get(date, 0). -/
def hoursGet (m : List (Date × ℕ)) (d : Date) : ℕ := (dictGet d m).getD 0

/-- Resource.is_available: workday on the shared calendar, no own vacation
covering the date, and the new load would stay within the 8-hour day. -/
def Resource.is_available (r : Resource) (date : Date) (required_hours : ℕ) : Bool :=
  r.calendar.is_workday date &&
  !(r.vacations.any fun iv => decide (iv.1 ≤ date) && decide (date ≤ iv.2)) &&
  decide (hoursGet r.assigned_hours date + required_hours ≤ 8)

/-- The successful branch of Resource.assign_work: increment
assigned_hours[date] by hours. -/
def Resource.applyAssign (r : Resource) (date : Date) (hours : ℕ) : Resource :=
  { r with assigned_hours :=
      dictSet date (hoursGet r.assigned_hours date + hours) r.assigned_hours }

/-- Resource.assign_work: raises (none) when is_available is false for the
same date and hours, otherwise increments assigned_hours[date]. -/
def Resource.assign_work (r : Resource) (date : Date) (hours : ℕ) : Option Resource :=
  if r.is_available date hours then some (r.applyAssign date hours) else none

/-- A sequence of assign_work calls in which every failing call leaves the
resource as it was (in the source a failure raises before any mutation). -/
def assignSeq (r : Resource) (ops : List (Date × ℕ)) : Resource :=
  ops.foldl (fun acc op => (acc.assign_work op.1 op.2).getD acc) r

/-- ResourcePool from resource_pool.py. The Resource objects live in an
explicit store (heap) in creation order; the id index and the type index hold
store addresses, so the aliasing of the Python object references is
preserved: both indices see every mutation of a stored resource. -/
structure ResourcePool where
  calendar : BusinessCalendar
  store : List Resource
  resources : List (String × ℕ)
  resources_by_type : List (String × List ℕ)
deriving DecidableEq

/-- ResourcePool(calendar): empty pool. -/
def ResourcePool.mkEmpty (cal : BusinessCalendar) : ResourcePool := ⟨cal, [], [], []⟩

/-- ResourcePool.add_resource: creates a fresh Resource on the pool's
calendar and registers its address in the id index (dict assignment, so an
existing id is silently overwritten) and at the end of its type bucket (the
source inserts an empty bucket first when the type is new). There is no
duplicate-id check in the source. -/
def ResourcePool.add_resource (p : ResourcePool) (resource_id name resource_type : String) :
    ResourcePool :=
  let ref := p.store.length
  { p with
    store := p.store ++ [newResource name resource_type p.calendar]
    resources := dictSet resource_id ref p.resources
    resources_by_type :=
      dictSet resource_type ((dictGet resource_type p.resources_by_type).getD [] ++ [ref])
        p.resources_by_type }

/-- The bucket self.resources_by_type.get(resource_type, []). -/
def ResourcePool.bucket (p : ResourcePool) (resource_type : String) : List ℕ :=
  (dictGet resource_type p.resources_by_type).getD []

/-- The scan inside ResourcePool.allocate_resource: walk the type bucket in
registration order; the first resource whose is_available holds receives
assign_work (guarded by that very check, so the assignment cannot raise) and
its address is returned together with the updated store. -/
def allocScan (d : Date) (h : ℕ) : List Resource → List ℕ → Option ℕ × List Resource
  | store, [] => (none, store)
  | store, ref :: rest =>
    match store[ref]? with
    | some r =>
      if r.is_available d h then (some ref, store.set ref (r.applyAssign d h))
      else allocScan d h store rest
    | none => allocScan d h store rest

/-- ResourcePool.allocate_resource: first-fit allocation over the requested
type's bucket; returns None and an untouched pool when no resource of that
type is available (including when the type has no bucket at all). -/
def ResourcePool.allocate_resource (p : ResourcePool) (resource_type : String) (d : Date)
    (h : ℕ) : Option ℕ × ResourcePool :=
  let res := allocScan d h p.store (p.bucket resource_type)
  (res.1, { p with store := res.2 })

/-- The dates visited by the while loop of get_utilization: start, start+1,
... while the current date is at most end (one step per timedelta(days=1)). -/
def utilDates (s e : Date) : List Date :=
  (List.range (if e < s then 0 else (⌊e - s⌋.toNat + 1))).map fun k => s + k

/-- len(self.resources_by_type.get("quota", [])) -/
def ResourcePool.quotaCount (p : ResourcePool) : ℕ := (p.bucket "quota").length

/-- The inner loop of get_utilization: total assigned hours on one date,
summed over the id index (a resource overwritten out of the id index by a
duplicate add is not counted, exactly as in the source). -/
def ResourcePool.dailyAssigned (p : ResourcePool) (d : Date) : ℕ :=
  p.resources.foldl
    (fun acc kv =>
      acc + (match p.store[kv.2]? with
             | some r => hoursGet r.assigned_hours d
             | none => 0)) 0

/-- ResourcePool.get_utilization: over each workday of the inclusive range,
accumulate quota capacity (quota count times 8) and assigned hours over all
resources, and divide, with 0 instead of a division by zero. -/
def ResourcePool.get_utilization (p : ResourcePool) (s e : Date) : ℚ :=
  let workdays := (utilDates s e).filter fun d => p.calendar.is_workday d
  let total_capacity : ℕ := workdays.length * (p.quotaCount * 8)
  let total_assigned : ℕ := workdays.foldl (fun acc d => acc + p.dailyAssigned d) 0
  if total_capacity = 0 then 0 else (total_assigned : ℚ) / (total_capacity : ℚ)

/-- The two-sided index invariant of the data model: every address in a type
bucket is the image of some id, and every id's address lies in some type
bucket. -/
def PoolInv (p : ResourcePool) : Prop :=
  (∀ ty refs, dictGet ty p.resources_by_type = some refs →
     ∀ ref ∈ refs, ∃ id, dictGet id p.resources = some ref) ∧
  (∀ id ref, dictGet id p.resources = some ref →
     ∃ ty refs, dictGet ty p.resources_by_type = some refs ∧ ref ∈ refs)

/-- One stage record of a workflow definition: the default bid, the
per-complexity overrides (the other keys of the stage dict that name
complexity levels) and the required resource type. The review and
approval_required flags of the source are never consulted by the engine and
are omitted. -/
structure StageDef where
  default : ℕ
  overrides : List (String × ℕ)
  resource_type : String
deriving DecidableEq

/-- stage_def.get(complexity, stage_def["default"]) -/
def StageDef.bid (s : StageDef) (complexity : String) : ℕ :=
  (dictGet complexity s.overrides).getD s.default

/-- ProductionEvent from simulator.py; duration is derived at construction as
(end - start).total_seconds() / 3600, i.e. the day difference times 24. -/
structure ProductionEvent where
  item_id : String
  stage : String
  start_time : Date
  end_time : Date
  resource : String
  duration : ℚ
deriving DecidableEq

/-- The ProductionEvent constructor, computing the duration field. -/
def mkEvent (item_id stage : String) (start_time end_time : Date) (resource : String) :
    ProductionEvent :=
  ⟨item_id, stage, start_time, end_time, resource, (end_time - start_time) * 24⟩

/-- The inputs of one simulation run: the ProductionParameters fields the
engine reads (the studio calendar, the asset_workflow stage list, the
creative calendar and the complexity levels), the scheduled items, the
wall-clock timestamp datetime.now() captured as current_date at construction,
and the run horizon in simulated days. -/
structure SimConfig where
  calendar : BusinessCalendar
  workflow : List (String × StageDef)
  creative_calendar : List (String × Date)
  complexity_matrix : List (String × String)
  assets : List String
  current_date : Date
  horizon : ℚ
deriving DecidableEq

/-- The continuation of a suspended item process: entry i is the top of the
while loop at stage index i (the creative-input wait of the first stage not
yet performed in this iteration), afterWait i is the resumption of the
creative-input timeout, and working carries the data alive across the
stage-duration timeout. -/
inductive Phase where
  | entry (i : ℕ)
  | afterWait (i : ℕ)
  | working (i : ℕ) (start : Date) (resName : String)
deriving DecidableEq

/-- The mutable state of the cooperative scheduler: the clock env.now (in the
units of env.timeout), the next event id, the pending wakeups as
(time, event id, process index, continuation), the shared resource pool, and
the accumulated event list. -/
structure SimState where
  now : ℚ
  seq : ℕ
  pending : List (ℚ × ℕ × ℕ × Phase)
  pool : ResourcePool
  events : List ProductionEvent
deriving DecidableEq

/-- AnimSimulator._register_resources: the fixed studio setup. -/
def registerResources (p : ResourcePool) : ResourcePool :=
  ((((((((p.add_resource "m1" "Modeling Artist" "quota").add_resource
    "m2" "Modeling Artist" "quota").add_resource
    "l1" "Layout Artist" "quota").add_resource
    "l2" "Layout Artist" "quota").add_resource
    "a1" "Animation Artist" "quota").add_resource
    "a2" "Animation Artist" "quota").add_resource
    "a3" "Animation Artist" "quota").add_resource
    "s1" "Support Technician" "support")

/-- AnimSimulator.resolve_conflict. In the source, _get_pending_tasks always
returns a fixed non-empty sample list, so the early return False is
unreachable; the function then prints the hard-coded assignment of
_solve_min_cost_flow and returns True without touching any simulation state.
Its observable behaviour is therefore the constant True. -/
def resolve_conflict (_asset_id _stage : String) : Bool := true

/-- Append a wakeup for a process: env.timeout(delay) yielded by the process
resumes it at now + delay with the next event id (simpy orders equal-time
events by increasing event id). -/
def schedule (st : SimState) (procIdx : ℕ) (t : ℚ) (ph : Phase) : SimState :=
  { st with pending := st.pending ++ [(t, st.seq, procIdx, ph)], seq := st.seq + 1 }

/-- The body of the while loop of AnimSimulator.process_asset, run from stage
index i until the next yield (or process termination). waited records whether
the creative-input timeout of this loop iteration has already happened. The
fuel is an upper bound on the remaining loop iterations that do not yield
(each such iteration moves to the next stage, so any fuel above the number of
stages left is exact). -/
def loopBody (cfg : SimConfig) (procIdx : ℕ) (asset complexity : String) :
    ℕ → ℕ → Bool → SimState → SimState
  | 0, _, _, st => st
  | fuel + 1, i, waited, st =>
    match cfg.workflow[i]? with
    | none => st
    | some (stageName, sdef) =>
      if i = 0 && !waited then
        let inputDate := (dictGet asset cfg.creative_calendar).getD 0
        schedule st procIdx (st.now + (inputDate - cfg.current_date) * 86400) (.afterWait i)
      else
        let bid := sdef.bid complexity
        let start_time := cfg.current_date + st.now
        let res := st.pool.allocate_resource sdef.resource_type start_time bid
        match res.1 with
        | some ref =>
          let rname := (res.2.store.getD ref (newResource "" "" cfg.calendar)).name
          schedule { st with pool := res.2 } procIdx (st.now + bid * 24)
            (.working i start_time rname)
        | none =>
          if resolve_conflict asset stageName then
            loopBody cfg procIdx asset complexity fuel (i + 1) false { st with pool := res.2 }
          else
            schedule st procIdx (st.now + 1) (.entry i)

/-- Resume one suspended process: dispatch on the stored continuation. A
resumption from the stage-duration timeout first records the ProductionEvent
and then continues the loop at the next stage. -/
def resumeProc (cfg : SimConfig) (procIdx : ℕ) (ph : Phase) (st : SimState) : SimState :=
  let asset := cfg.assets.getD procIdx ""
  let complexity := (dictGet asset cfg.complexity_matrix).getD ""
  match ph with
  | .entry i => loopBody cfg procIdx asset complexity (cfg.workflow.length + 1) i false st
  | .afterWait i => loopBody cfg procIdx asset complexity (cfg.workflow.length + 1) i true st
  | .working i start rname =>
    let stageName := ((cfg.workflow[i]?).map fun x => x.1).getD ""
    let endT := cfg.current_date + st.now
    let ev := mkEvent asset stageName start endT rname
    loopBody cfg procIdx asset complexity (cfg.workflow.length + 1) (i + 1) false
      { st with events := st.events ++ [ev] }

/-- Strict order on (time, event id) keys used by the event queue. -/
def keyLt (a b : ℚ × ℕ) : Bool := decide (a.1 < b.1) || (decide (a.1 = b.1) && decide (a.2 < b.2))

/-- Pop the pending wakeup with the least (time, event id), keeping the
earlier-scheduled entry on (impossible) ties, as the simpy heap does. -/
def popMin : List (ℚ × ℕ × ℕ × Phase) →
    Option ((ℚ × ℕ × ℕ × Phase) × List (ℚ × ℕ × ℕ × Phase))
  | [] => none
  | x :: rest =>
    match popMin rest with
    | none => some (x, [])
    | some (m, rest2) =>
      if keyLt (m.1, m.2.1) (x.1, x.2.1) then some (m, x :: rest2) else some (x, rest)

/-- The event loop of env.run(until): process pending wakeups in
(time, event id) order while they fall strictly before the horizon, then set
the clock to the horizon (the run-until event of simpy is urgent, so a wakeup
at exactly the horizon is not processed). The fuel bounds the number of
scheduler steps; every theorem below instantiates it generously enough that
the run has quiesced. -/
def runSteps (cfg : SimConfig) : ℕ → SimState → SimState
  | 0, st => st
  | fuel + 1, st =>
    match popMin st.pending with
    | none => { st with now := cfg.horizon }
    | some (e, rest) =>
      if e.1 < cfg.horizon then
        runSteps cfg fuel (resumeProc cfg e.2.2.1 e.2.2.2 { st with now := e.1, pending := rest })
      else { st with now := cfg.horizon }

/-- AnimSimulator.__init__ plus schedule_production: the pool is populated by
_register_resources on the studio calendar, and one process per scheduled
asset is initialized at time 0 in registration order (simpy initialization
events carry the first event ids). -/
def initState (cfg : SimConfig) : SimState :=
  { now := 0
    seq := cfg.assets.length
    pending := (List.range cfg.assets.length).map fun k => ((0 : ℚ), k, k, Phase.entry 0)
    pool := registerResources (ResourcePool.mkEmpty cfg.calendar)
    events := [] }

/-- One whole simulation: construct, schedule, run. -/
def runSim (cfg : SimConfig) (fuel : ℕ) : SimState := runSteps cfg fuel (initState cfg)

/-- A calendar on which every day of the week is a working day, with no
holidays and no vacations; used by the concrete test configurations. -/
def allCal : BusinessCalendar := ⟨"Studio Calendar", [0, 1, 2, 3, 4, 5, 6], [], []⟩

/-- A calendar configured with no working weekdays at all: the degenerate
configuration of the next_workday scan. -/
def noWorkCal : BusinessCalendar := ⟨"No Workdays", [], [], []⟩

/-- A pool holding exactly one quota resource. -/
def poolW : ResourcePool :=
  (ResourcePool.mkEmpty allCal).add_resource "m1" "Modeling Artist" "quota"

/-- The single resource stored in poolW. -/
def resW : Resource := newResource "Modeling Artist" "quota" allCal

/-- A pool with one quota resource and one support resource. -/
def poolQS : ResourcePool :=
  ((ResourcePool.mkEmpty allCal).add_resource "m1" "Modeling Artist" "quota").add_resource
    "s1" "Support Technician" "support"

/-- poolQS after booking 8 hours on day 0 on both the quota resource and the
support resource. -/
def poolQSBooked : ResourcePool :=
  ((poolQS.allocate_resource "quota" 0 8).2.allocate_resource "support" 0 8).2

/-- One add_resource call on an empty pool. -/
def pDup1 : ResourcePool := (ResourcePool.mkEmpty allCal).add_resource "r1" "Artist A" "quota"

/-- A second add_resource call reusing the id of the first. -/
def pDup2 : ResourcePool := pDup1.add_resource "r1" "Artist B" "quota"

/-- Configuration for the stage-duration run: a single-stage workflow with a
2-hour bid on the quota type, one asset whose creative input coincides with
the construction timestamp. -/
def cfgC1 : SimConfig :=
  { calendar := allCal
    workflow := [("modelado", ⟨2, [], "quota"⟩)]
    creative_calendar := [("a1", 0)]
    complexity_matrix := [("a1", "alta")]
    assets := ["a1"]
    current_date := 0
    horizon := 100 }

/-- Configuration for the conflict-resolution run: the first stage requires
the review resource type, of which the fixed studio setup registers no
resource, so its allocation always fails; the second stage is an ordinary
quota stage. -/
def cfgC3 : SimConfig :=
  { calendar := allCal
    workflow := [("review_stage", ⟨1, [], "review"⟩), ("modelado", ⟨2, [], "quota"⟩)]
    creative_calendar := [("a1", 0)]
    complexity_matrix := [("a1", "alta")]
    assets := ["a1"]
    current_date := 0
    horizon := 100 }

/-- First run of the reproducibility pair: construction timestamp 0. -/
def cfgRepA : SimConfig :=
  { calendar := allCal
    workflow := [("modelado", ⟨2, [], "quota"⟩)]
    creative_calendar := [("a1", 1)]
    complexity_matrix := [("a1", "alta")]
    assets := ["a1"]
    current_date := 0
    horizon := 1000000 }

/-- Second run of the reproducibility pair: identical production parameters,
resource registrations, scheduled items and horizon, but constructed one day
later (datetime.now() returned a different wall-clock instant). -/
def cfgRepB : SimConfig :=
  { calendar := allCal
    workflow := [("modelado", ⟨2, [], "quota"⟩)]
    creative_calendar := [("a1", 1)]
    complexity_matrix := [("a1", "alta")]
    assets := ["a1"]
    current_date := 1
    horizon := 1000000 }

/-!
Helper lemmas.
-/

theorem dictGet_dictSet_self {α β : Type _} [DecidableEq α] (k : α) (v : β)
    (m : List (α × β)) : dictGet k (dictSet k v m) = some v := by
  induction m with
  | nil => simp [dictGet, dictSet]
  | cons hd tl ih =>
    by_cases hk : hd.1 = k
    · simp [dictGet, dictSet, hk]
    · simp [dictGet, dictSet, hk, ih]

theorem dictGet_dictSet_ne {α β : Type _} [DecidableEq α] (k k2 : α) (v : β)
    (m : List (α × β)) (hne : k2 ≠ k) :
    dictGet k2 (dictSet k v m) = dictGet k2 m := by
  induction m with
  | nil => simp [dictGet, dictSet, Ne.symm hne]
  | cons hd tl ih =>
    by_cases hk : hd.1 = k
    · cases hd with
      | mk a b =>
        simp only at hk
        subst hk
        simp [dictGet, dictSet, Ne.symm hne, fun h : a = k2 => hne h.symm]
    · simp [dictGet, dictSet, hk, ih]

theorem hoursGet_applyAssign_self (r : Resource) (d : Date) (h : ℕ) :
    hoursGet (r.applyAssign d h).assigned_hours d = hoursGet r.assigned_hours d + h := by
  simp [Resource.applyAssign, hoursGet, dictGet_dictSet_self]

theorem hoursGet_applyAssign_ne (r : Resource) (d d2 : Date) (h : ℕ) (hne : d2 ≠ d) :
    hoursGet (r.applyAssign d h).assigned_hours d2 = hoursGet r.assigned_hours d2 := by
  simp [Resource.applyAssign, hoursGet, dictGet_dictSet_ne _ _ _ _ hne]

theorem is_available_load_le (r : Resource) (d : Date) (h : ℕ)
    (hav : r.is_available d h = true) : hoursGet r.assigned_hours d + h ≤ 8 := by
  have := hav
  simp [Resource.is_available, Bool.and_eq_true] at this
  exact this.2

theorem assignSeq_load_le (ops : List (Date × ℕ)) (r : Resource)
    (hr : ∀ d, hoursGet r.assigned_hours d ≤ 8) :
    ∀ d, hoursGet (assignSeq r ops).assigned_hours d ≤ 8 := by
  induction ops generalizing r with
  | nil => simpa [assignSeq]
  | cons op rest ih =>
    intro d
    have step : ∀ d2, hoursGet ((r.assign_work op.1 op.2).getD r).assigned_hours d2 ≤ 8 := by
      intro d2
      by_cases hav : r.is_available op.1 op.2 = true
      · have hle := is_available_load_le r op.1 op.2 hav
        by_cases hd : d2 = op.1
        · subst hd
          simpa [Resource.assign_work, hav, hoursGet_applyAssign_self]
        · simpa [Resource.assign_work, hav, hoursGet_applyAssign_ne r op.1 d2 op.2 hd]
            using hr d2
      · simp only [Resource.assign_work, Bool.not_eq_true] at hav
        simpa [Resource.assign_work, hav] using hr d2
    have : assignSeq r (op :: rest) = assignSeq ((r.assign_work op.1 op.2).getD r) rest := by
      simp [assignSeq]
    rw [this]
    exact ih ((r.assign_work op.1 op.2).getD r) step d

theorem allocScan_cases (d : Date) (h : ℕ) (store : List Resource) (refs : List ℕ) :
    ((allocScan d h store refs).1 = none ∧ (allocScan d h store refs).2 = store) ∨
    (∃ ref r, (allocScan d h store refs).1 = some ref ∧ store[ref]? = some r ∧
      r.is_available d h = true ∧
      (allocScan d h store refs).2 = store.set ref (r.applyAssign d h)) := by
  induction refs with
  | nil => left; simp [allocScan]
  | cons a rest ih =>
    cases hcell : store[a]? with
    | none => simpa [allocScan, hcell] using ih
    | some r =>
      by_cases hav : r.is_available d h = true
      · right
        exact ⟨a, r, by simp [allocScan, hcell, hav], hcell, hav, by simp [allocScan, hcell, hav]⟩
      · simpa [allocScan, hcell, hav] using ih

theorem allocScan_finds (d : Date) (h : ℕ) (store : List Resource) (i0 : ℕ) (r0 : Resource)
    (hr0 : store[i0]? = some r0) (hav : r0.is_available d h = true) (refs : List ℕ)
    (hmem : i0 ∈ refs)
    (hothers : ∀ ref ∈ refs, ref ≠ i0 → ∀ r, store[ref]? = some r →
       r.is_available d h = false) :
    allocScan d h store refs = (some i0, store.set i0 (r0.applyAssign d h)) := by
  induction refs with
  | nil => simp at hmem
  | cons a rest ih =>
    by_cases ha : a = i0
    · subst ha
      simp [allocScan, hr0, hav]
    · have hmem2 : i0 ∈ rest := by
        cases List.mem_cons.1 hmem with
        | inl hbad => exact absurd hbad.symm ha
        | inr hok => exact hok
      have hrec := ih hmem2 fun ref hm => hothers ref (List.mem_cons_of_mem _ hm)
      cases hcell : store[a]? with
      | none => simpa [allocScan, hcell] using hrec
      | some r =>
        have hf := hothers a (List.mem_cons_self a rest) ha r hcell
        simpa [allocScan, hcell, hf] using hrec

theorem allocScan_none_of_unavailable (d : Date) (h : ℕ) (store : List Resource)
    (refs : List ℕ)
    (hall : ∀ ref ∈ refs, ∀ r, store[ref]? = some r → r.is_available d h = false) :
    allocScan d h store refs = (none, store) := by
  induction refs with
  | nil => simp [allocScan]
  | cons a rest ih =>
    have hrec := ih fun ref hm => hall ref (List.mem_cons_of_mem _ hm)
    cases hcell : store[a]? with
    | none => simpa [allocScan, hcell] using hrec
    | some r =>
      have hf := hall a (List.mem_cons_self a rest) r hcell
      simpa [allocScan, hcell, hf] using hrec

theorem applyAssign_not_available (r : Resource) (d : Date) (h : ℕ) (hh : 8 < h + h) :
    (r.applyAssign d h).is_available d h = false := by
  have hload : ¬ (hoursGet (r.applyAssign d h).assigned_hours d + h ≤ 8) := by
    rw [hoursGet_applyAssign_self]
    omega
  simp [Resource.is_available, hload]

theorem noWorkCal_is_workday (d : Date) : noWorkCal.is_workday d = false := by
  simp [noWorkCal, BusinessCalendar.is_workday]

theorem nextWorkdayAux_noWorkCal (fuel : ℕ) :
    ∀ d, nextWorkdayAux noWorkCal fuel d = none := by
  induction fuel with
  | zero => intro d; simp [nextWorkdayAux]
  | succ n ih => intro d; simp [nextWorkdayAux, noWorkCal_is_workday, ih]

theorem poolInv_mkEmpty (cal : BusinessCalendar) : PoolInv (ResourcePool.mkEmpty cal) := by
  constructor
  · intro ty refs href
    simp [ResourcePool.mkEmpty, dictGet] at href
  · intro id ref href
    simp [ResourcePool.mkEmpty, dictGet] at href

/-!
Claim theorems.
-/

/-- C5: is_workday returns False whenever the weekday is not in work_days, or
the date is a holiday, or it lies inside some vacation interval (inclusive),
and True in every remaining case. The embedding of the call is a pure
function, so it has no side effects by construction. -/
theorem c5_is_workday_characterization (c : BusinessCalendar) (d : Date) :
    c.is_workday d = true ↔
      (pyWeekday d ∈ c.work_days ∧ (d ∉ c.holidays) ∧
        ∀ iv ∈ c.vacations, ¬ (iv.1 ≤ d ∧ d ≤ iv.2)) := by
  simp only [BusinessCalendar.is_workday, Bool.and_eq_true, Bool.not_eq_true',
    List.any_eq_false, List.any_eq_true, decide_eq_true_eq, Bool.and_eq_false_iff,
    decide_eq_false_iff_not]
  constructor
  · rintro ⟨⟨⟨w, hw, hwd⟩, hhol⟩, hvac⟩
    exact ⟨hwd ▸ hw, fun hd => hhol d hd rfl, hvac⟩
  · rintro ⟨hwd, hhol, hvac⟩
    exact ⟨⟨⟨pyWeekday d, hwd, rfl⟩, fun x hx hxd => hhol (hxd ▸ hx)⟩, hvac⟩

/-- C6: the claim asserts that a calendar configured with no working days is
guarded (an iteration cap producing a ConfigurationError) instead of looping
forever. In the source next_workday is an uncapped while loop, so on such a
calendar the scan never returns no matter how many iterations it is granted:
the fuelled embedding yields none for every budget, and no error value
exists. This theorem evaluates the code at the failing input of the
code_bug record. -/
theorem c6_no_workday_scan_never_returns :
    ∀ fuel : ℕ, noWorkCal.next_workday 0 fuel = none := fun fuel =>
  nextWorkdayAux_noWorkCal fuel (0 + 1)

/-- C4: assign_work fails exactly when is_available is false for the same
date and hours (and then, raising before any mutation, leaves assigned_hours
unchanged); on success assigned_hours[date] grows by hours and no other date
changes; and starting from a freshly constructed Resource, any sequence of
assign_work calls whose failures are discarded keeps every date's total at
most 8. -/
theorem c4_assign_work_contract (r : Resource) (d : Date) (h : ℕ)
    (name ty : String) (cal : BusinessCalendar) (ops : List (Date × ℕ)) :
    (r.assign_work d h = none ↔ r.is_available d h = false) ∧
    (∀ r2, r.assign_work d h = some r2 →
       hoursGet r2.assigned_hours d = hoursGet r.assigned_hours d + h ∧
       ∀ d2, d2 ≠ d → hoursGet r2.assigned_hours d2 = hoursGet r.assigned_hours d2) ∧
    (∀ d2, hoursGet (assignSeq (newResource name ty cal) ops).assigned_hours d2 ≤ 8) := by
  refine ⟨?_, ?_, ?_⟩
  · by_cases hav : r.is_available d h = true
    · simp [Resource.assign_work, hav]
    · simp only [Bool.not_eq_true] at hav
      simp [Resource.assign_work, hav]
  · intro r2 heq
    by_cases hav : r.is_available d h = true
    · simp only [Resource.assign_work, hav, if_true, Option.some.injEq] at heq
      subst heq
      exact ⟨hoursGet_applyAssign_self r d h, fun d2 hne => hoursGet_applyAssign_ne r d d2 h hne⟩
    · simp only [Bool.not_eq_true] at hav
      simp [Resource.assign_work, hav] at heq
  · exact assignSeq_load_le ops (newResource name ty cal)
      (fun d2 => by simp [newResource, hoursGet, dictGet])

/-- Witness for C4: a fresh resource on the all-days calendar accepts 3 hours
on day 0, and the committed hours on that date grow from 0 to 3. -/
theorem c4_assign_work_contract_witness :
    hoursGet ((newResource "m1" "quota" allCal).applyAssign 0 3).assigned_hours 0 =
      hoursGet (newResource "m1" "quota" allCal).assigned_hours 0 + 3 :=
  ((c4_assign_work_contract (newResource "m1" "quota" allCal) 0 3 "m1" "quota" allCal []).2.1
    ((newResource "m1" "quota" allCal).applyAssign 0 3) (by decide)).1

/-- C7 counterexample: adding a second resource under the already-registered
id "r1" neither fails nor leaves the indices unchanged. The id index now maps
"r1" to the new cell 1 while the quota bucket holds both cells, so the old
cell 0 sits in the type index with no id pointing at it — the very invariant
the claim says is preserved. -/
theorem c7_duplicate_add_changes_indices :
    pDup2.resources = [("r1", 1)] ∧
    pDup2.resources_by_type = [("quota", [0, 1])] ∧
    pDup1.resources = [("r1", 0)] ∧
    pDup1.resources_by_type = [("quota", [0])] := by
  refine ⟨by decide, by decide, by decide, by decide⟩

/-- C7 amended: add_resource never fails. It always stores a fresh Resource
at the next cell, points the id index entry at it (overwriting any previous
entry for that id) and appends the cell to the type bucket, leaving all other
ids and buckets unchanged; when the id was not yet registered this preserves
the two-sided index invariant. (With a duplicate id the invariant can break,
as the counterexample shows.) -/
theorem c7_add_resource_amended (p : ResourcePool) (id name ty : String) :
    dictGet id (p.add_resource id name ty).resources = some p.store.length ∧
    (∀ id2, id2 ≠ id →
       dictGet id2 (p.add_resource id name ty).resources = dictGet id2 p.resources) ∧
    dictGet ty (p.add_resource id name ty).resources_by_type =
      some ((dictGet ty p.resources_by_type).getD [] ++ [p.store.length]) ∧
    (∀ ty2, ty2 ≠ ty →
       dictGet ty2 (p.add_resource id name ty).resources_by_type =
         dictGet ty2 p.resources_by_type) ∧
    (p.add_resource id name ty).store = p.store ++ [newResource name ty p.calendar] ∧
    (dictGet id p.resources = none → PoolInv p → PoolInv (p.add_resource id name ty)) := by
  refine ⟨dictGet_dictSet_self _ _ _, fun id2 hne => dictGet_dictSet_ne _ _ _ _ hne,
    dictGet_dictSet_self _ _ _, fun ty2 hne => dictGet_dictSet_ne _ _ _ _ hne, rfl, ?_⟩
  intro hfresh hinv
  constructor
  · intro ty2 refs2 href2 ref hmemref
    by_cases hty : ty2 = ty
    · subst hty
      rw [show (p.add_resource id name ty2).resources_by_type =
            dictSet ty2 ((dictGet ty2 p.resources_by_type).getD [] ++ [p.store.length])
              p.resources_by_type from rfl, dictGet_dictSet_self] at href2
      cases href2
      cases List.mem_append.1 hmemref with
      | inl hold =>
        cases hbx : dictGet ty2 p.resources_by_type with
        | none => rw [hbx] at hold; simp at hold
        | some refs0 =>
          rw [hbx] at hold
          simp only [Option.getD_some] at hold
          obtain ⟨id2, hid2⟩ := hinv.1 ty2 refs0 hbx ref hold
          refine ⟨id2, ?_⟩
          have hne : id2 ≠ id := fun heq => by rw [heq, hfresh] at hid2; cases hid2
          rw [show (p.add_resource id name ty2).resources =
                dictSet id p.store.length p.resources from rfl,
            dictGet_dictSet_ne _ _ _ _ hne]
          exact hid2
      | inr hnew =>
        simp only [List.mem_singleton] at hnew
        subst hnew
        exact ⟨id, dictGet_dictSet_self _ _ _⟩
    · rw [show (p.add_resource id name ty).resources_by_type =
            dictSet ty ((dictGet ty p.resources_by_type).getD [] ++ [p.store.length])
              p.resources_by_type from rfl, dictGet_dictSet_ne _ _ _ _ hty] at href2
      obtain ⟨id2, hid2⟩ := hinv.1 ty2 refs2 href2 ref hmemref
      refine ⟨id2, ?_⟩
      have hne : id2 ≠ id := fun heq => by rw [heq, hfresh] at hid2; cases hid2
      rw [show (p.add_resource id name ty).resources =
            dictSet id p.store.length p.resources from rfl,
        dictGet_dictSet_ne _ _ _ _ hne]
      exact hid2
  · intro id2 ref href2
    by_cases hid : id2 = id
    · subst hid
      rw [show (p.add_resource id2 name ty).resources =
            dictSet id2 p.store.length p.resources from rfl, dictGet_dictSet_self] at href2
      cases href2
      refine ⟨ty, (dictGet ty p.resources_by_type).getD [] ++ [p.store.length],
        dictGet_dictSet_self _ _ _, List.mem_append_right _ (List.mem_singleton_self _)⟩
    · rw [show (p.add_resource id name ty).resources =
            dictSet id p.store.length p.resources from rfl,
        dictGet_dictSet_ne _ _ _ _ hid] at href2
      obtain ⟨ty2, refs0, hty2, hmem0⟩ := hinv.2 id2 ref href2
      by_cases hty : ty2 = ty
      · subst hty
        refine ⟨ty2, (dictGet ty2 p.resources_by_type).getD [] ++ [p.store.length],
          dictGet_dictSet_self _ _ _, ?_⟩
        rw [hty2]
        exact List.mem_append_left _ hmem0
      · exact ⟨ty2, refs0, by
          rw [show (p.add_resource id name ty).resources_by_type =
                dictSet ty ((dictGet ty p.resources_by_type).getD [] ++ [p.store.length])
                  p.resources_by_type from rfl, dictGet_dictSet_ne _ _ _ _ hty]
          exact hty2, hmem0⟩

/-- Witness for C7: registering "m1" in an empty pool puts cell 0 into the id
index and preserves the two-sided invariant. -/
theorem c7_add_resource_amended_witness :
    dictGet "m1" ((ResourcePool.mkEmpty allCal).add_resource "m1" "Modeling Artist"
      "quota").resources = some (ResourcePool.mkEmpty allCal).store.length ∧
    PoolInv ((ResourcePool.mkEmpty allCal).add_resource "m1" "Modeling Artist" "quota") :=
  ⟨(c7_add_resource_amended (ResourcePool.mkEmpty allCal) "m1" "Modeling Artist" "quota").1,
   (c7_add_resource_amended (ResourcePool.mkEmpty allCal) "m1" "Modeling Artist"
      "quota").2.2.2.2.2 (by decide) (poolInv_mkEmpty allCal)⟩

/-- C8 counterexample: utilization is not confined to the interval from 0 to
1. Capacity counts only quota resources, but the assigned sum runs over all
resources: after booking 8 hours on day 0 for the one quota resource and 8
hours for the one support resource, the day's capacity is 8 and the day's
assigned hours are 16, so get_utilization returns 2. -/
theorem c8_utilization_exceeds_one :
    poolQSBooked.get_utilization 0 0 = 2 ∧ ¬ poolQSBooked.get_utilization 0 0 ≤ 1 := by
  have hdates : utilDates 0 0 = [0] := by
    norm_num [utilDates, List.range_succ, Int.floor_zero]
  have hfil : List.filter (fun d => poolQSBooked.calendar.is_workday d) [0] = [0] := by decide
  have hass : poolQSBooked.dailyAssigned 0 = 16 := by decide
  have hq : poolQSBooked.quotaCount = 1 := by decide
  have hval : poolQSBooked.get_utilization 0 0 = 2 := by
    simp only [ResourcePool.get_utilization, hdates, hfil, hass, hq, List.foldl_cons,
      List.foldl_nil, List.length_cons, List.length_nil]
    norm_num
  rw [hval]
  norm_num

/-- C8 amended: get_utilization is a nonnegative ratio of total assigned
hours over quota capacity, computed over the workdays of the inclusive
range, and returns exactly 0 (with no division evaluated) whenever the total
capacity is 0 — in particular when the pool has no quota resources, or when
no date of the range is a workday. It can exceed 1 when non-quota resources
carry assigned hours, as the counterexample shows. -/
theorem c8_utilization_amended (p : ResourcePool) (s e : Date) :
    0 ≤ p.get_utilization s e ∧
    (p.quotaCount = 0 → p.get_utilization s e = 0) ∧
    ((utilDates s e).filter (fun d => p.calendar.is_workday d) = [] →
       p.get_utilization s e = 0) := by
  refine ⟨?_, ?_, ?_⟩
  · unfold ResourcePool.get_utilization
    by_cases hz :
        ((utilDates s e).filter fun d => p.calendar.is_workday d).length *
          (p.quotaCount * 8) = 0
    · simp [hz]
    · simp only [hz, if_false]
      positivity
  · intro hq
    unfold ResourcePool.get_utilization
    simp [hq]
  · intro hw
    unfold ResourcePool.get_utilization
    simp [hw]

/-- Witness for C8: the empty pool has no quota resources, so its utilization
over days 0 to 5 is exactly 0 and in particular nonnegative. -/
theorem c8_utilization_amended_witness :
    (ResourcePool.mkEmpty allCal).get_utilization 0 5 = 0 ∧
    0 ≤ (ResourcePool.mkEmpty allCal).get_utilization 0 5 :=
  ⟨(c8_utilization_amended (ResourcePool.mkEmpty allCal) 0 5).2.1 (by decide),
   (c8_utilization_amended (ResourcePool.mkEmpty allCal) 0 5).1⟩

/-- C9 counterexample: with exactly one quota resource free for 4 hours on
day 0, the first allocate_resource books it, but the booked resource still
has 4 of its 8 daily hours free, so the second identical call returns it
again instead of None. -/
theorem c9_second_call_succeeds_for_small_hours :
    (poolW.allocate_resource "quota" 0 4).1 = some 0 ∧
    ((poolW.allocate_resource "quota" 0 4).2.allocate_resource "quota" 0 4).1 = some 0 := by
  refine ⟨by decide, by decide⟩

/-- C9 amended: when exactly one resource of the type is available for the
date and hours, and the requested hours exceed half the 8-hour daily
capacity (so one booking exhausts the resource for a second identical
request), the first call returns that resource after booking it and the
second call returns None. -/
theorem c9_exclusive_allocation (p : ResourcePool) (ty : String) (d : Date) (h : ℕ)
    (i0 : ℕ) (r0 : Resource)
    (hh : 8 < h + h)
    (hmem : i0 ∈ p.bucket ty)
    (hr0 : p.store[i0]? = some r0)
    (havail : r0.is_available d h = true)
    (hothers : ∀ ref ∈ p.bucket ty, ref ≠ i0 →
       ∀ r, p.store[ref]? = some r → r.is_available d h = false) :
    (p.allocate_resource ty d h).1 = some i0 ∧
    (p.allocate_resource ty d h).2.store = p.store.set i0 (r0.applyAssign d h) ∧
    ((p.allocate_resource ty d h).2.allocate_resource ty d h).1 = none := by
  have hscan := allocScan_finds d h p.store i0 r0 hr0 havail (p.bucket ty) hmem hothers
  have hfst : (p.allocate_resource ty d h).1 = some i0 := by
    simp [ResourcePool.allocate_resource, hscan]
  have hsnd : (p.allocate_resource ty d h).2.store = p.store.set i0 (r0.applyAssign d h) := by
    simp [ResourcePool.allocate_resource, hscan]
  refine ⟨hfst, hsnd, ?_⟩
  have hbkt2 : (p.allocate_resource ty d h).2.bucket ty = p.bucket ty := rfl
  have hlt : i0 < p.store.length := by
    rcases List.getElem?_eq_some.1 hr0 with ⟨hl, _⟩
    exact hl
  have hall : ∀ ref ∈ p.bucket ty, ∀ r,
      (p.store.set i0 (r0.applyAssign d h))[ref]? = some r → r.is_available d h = false := by
    intro ref hrm r hcell
    by_cases hri : ref = i0
    · subst hri
      rw [List.getElem?_set_eq_of_lt _ hlt] at hcell
      cases hcell
      exact applyAssign_not_available r0 d h hh
    · rw [List.getElem?_set_ne (fun hEq => hri hEq.symm)] at hcell
      exact hothers ref hrm hri r hcell
  have hscan2 := allocScan_none_of_unavailable d h (p.store.set i0 (r0.applyAssign d h))
    (p.bucket ty) hall
  have hres2 : (p.allocate_resource ty d h).2 =
      { p with store := p.store.set i0 (r0.applyAssign d h) } := by
    show ({ p with store := (allocScan d h p.store (p.bucket ty)).2 } : ResourcePool) = _
    rw [hscan]
  rw [hres2]
  show (allocScan d h (p.store.set i0 (r0.applyAssign d h)) (p.bucket ty)).1 = none
  rw [hscan2]

/-- Witness for C9: poolW holds exactly the quota resource in cell 0, free on
day 0; requesting the default 8 hours twice books it once and then fails. -/
theorem c9_exclusive_allocation_witness :
    (poolW.allocate_resource "quota" 0 8).1 = some 0 ∧
    (poolW.allocate_resource "quota" 0 8).2.store = poolW.store.set 0 (resW.applyAssign 0 8) ∧
    ((poolW.allocate_resource "quota" 0 8).2.allocate_resource "quota" 0 8).1 = none :=
  c9_exclusive_allocation poolW "quota" 0 8 0 resW (by decide) (by decide) (by decide)
    (by decide)
    (by
      intro ref hrm hne r hcell
      have hb : poolW.bucket "quota" = [0] := by decide
      rw [hb] at hrm
      simp only [List.mem_singleton] at hrm
      exact absurd hrm hne)

/-- C10: allocate_resource touches nothing but the successful resource's
hours on the requested date. On success only the returned cell changes, and
within it only assigned_hours at that date (incremented by the requested
hours); every other cell, every other date, the calendar and both indices are
untouched. On failure (including an unregistered type) the pool is returned
exactly as it was. -/
theorem c10_allocate_frame (p : ResourcePool) (ty : String) (d : Date) (h : ℕ) :
    ((p.allocate_resource ty d h).2.calendar = p.calendar ∧
     (p.allocate_resource ty d h).2.resources = p.resources ∧
     (p.allocate_resource ty d h).2.resources_by_type = p.resources_by_type) ∧
    (∀ ref, (p.allocate_resource ty d h).1 = some ref →
       ∃ r, p.store[ref]? = some r ∧ r.is_available d h = true ∧
         (p.allocate_resource ty d h).2.store = p.store.set ref (r.applyAssign d h) ∧
         (∀ j, j ≠ ref → (p.allocate_resource ty d h).2.store[j]? = p.store[j]?) ∧
         (r.applyAssign d h).name = r.name ∧
         (r.applyAssign d h).resource_type = r.resource_type ∧
         (r.applyAssign d h).calendar = r.calendar ∧
         (r.applyAssign d h).vacations = r.vacations ∧
         hoursGet (r.applyAssign d h).assigned_hours d = hoursGet r.assigned_hours d + h ∧
         (∀ d2, d2 ≠ d →
            hoursGet (r.applyAssign d h).assigned_hours d2 = hoursGet r.assigned_hours d2)) ∧
    ((p.allocate_resource ty d h).1 = none → (p.allocate_resource ty d h).2 = p) := by
  refine ⟨⟨rfl, rfl, rfl⟩, ?_, ?_⟩
  · intro ref href
    cases allocScan_cases d h p.store (p.bucket ty) with
    | inl hnone =>
      rw [show (p.allocate_resource ty d h).1 =
            (allocScan d h p.store (p.bucket ty)).1 from rfl, hnone.1] at href
      cases href
    | inr hsome =>
      obtain ⟨ref2, r, h1, h2, h3, h4⟩ := hsome
      rw [show (p.allocate_resource ty d h).1 =
            (allocScan d h p.store (p.bucket ty)).1 from rfl, h1] at href
      cases href
      refine ⟨r, h2, h3, by
        rw [show (p.allocate_resource ty d h).2.store =
              (allocScan d h p.store (p.bucket ty)).2 from rfl, h4], ?_, rfl, rfl, rfl, rfl,
        hoursGet_applyAssign_self r d h, fun d2 hne => hoursGet_applyAssign_ne r d d2 h hne⟩
      intro j hj
      rw [show (p.allocate_resource ty d h).2.store =
            (allocScan d h p.store (p.bucket ty)).2 from rfl, h4,
        List.getElem?_set_ne (fun hEq => hj hEq.symm)]
  · intro href
    cases allocScan_cases d h p.store (p.bucket ty) with
    | inl hnone =>
      show ({ p with store := (allocScan d h p.store (p.bucket ty)).2 } : ResourcePool) = p
      rw [hnone.2]
    | inr hsome =>
      obtain ⟨ref2, r, h1, _, _, _⟩ := hsome
      rw [show (p.allocate_resource ty d h).1 =
            (allocScan d h p.store (p.bucket ty)).1 from rfl, h1] at href
      cases href

/-- Witness for C10: requesting the unregistered type "support" from poolW
returns None and leaves the pool exactly as it was. -/
theorem c10_allocate_frame_witness :
    (poolW.allocate_resource "support" 0 8).2 = poolW :=
  (c10_allocate_frame poolW "support" 0 8).2.2 (by decide)

/-- C1: evaluation of the code at the failing input of the code_bug record.
The claim (and the spec) say a stage with bid_hours of effort spans exactly
bid_hours simulated days. In the source the process yields
env.timeout(bid_hours * 24) while every timestamp is computed as
current_date + timedelta(days = env.now), so a single 2-hour stage spans 48
simulated days: the one ProductionEvent of this run starts at day 0, ends at
day 48, and carries duration 1152 "hours" — 24 times what the claim
requires. -/
theorem c1_stage_spans_24x_bid_days :
    (runSim cfgC1 10).events = [⟨"a1", "modelado", 0, 48, "Modeling Artist", 1152⟩] ∧
    ¬ ((runSim cfgC1 10).events.map fun e => e.end_time - e.start_time) = [(2 : ℚ)] := by
  have hrun : (runSim cfgC1 10).events =
      [⟨"a1", "modelado", 0, 48, "Modeling Artist", 1152⟩] := by
    norm_num [runSim, runSteps, initState, resumeProc, loopBody, schedule, popMin, keyLt,
      ResourcePool.allocate_resource, ResourcePool.bucket, allocScan,
      ResourcePool.add_resource, ResourcePool.mkEmpty, registerResources, resolve_conflict,
      Resource.is_available, Resource.applyAssign, BusinessCalendar.is_workday, pyWeekday,
      hoursGet, dictGet, dictSet, newResource, StageDef.bid, mkEvent, allCal, cfgC1]
  refine ⟨hrun, ?_⟩
  rw [hrun]
  norm_num

/-- C2 counterexample: the six conjuncts record that the two configurations
agree on every input the claim lists (parameters, registrations are the fixed
studio setup, scheduled items, horizon); they differ only in the wall-clock
instant datetime.now() captured at construction. The runs nevertheless
produce different event lists — the first stage starts at simulated day 86400
in one run and at day 1 in the other — so the code does not deliver
reproducibility from the listed inputs alone. -/
theorem c2_wall_clock_breaks_reproducibility :
    cfgRepA.calendar = cfgRepB.calendar ∧
    cfgRepA.workflow = cfgRepB.workflow ∧
    cfgRepA.creative_calendar = cfgRepB.creative_calendar ∧
    cfgRepA.complexity_matrix = cfgRepB.complexity_matrix ∧
    cfgRepA.assets = cfgRepB.assets ∧
    cfgRepA.horizon = cfgRepB.horizon ∧
    (runSim cfgRepA 10).events ≠ (runSim cfgRepB 10).events := by
  refine ⟨rfl, rfl, rfl, rfl, rfl, rfl, ?_⟩
  have hA : (runSim cfgRepA 10).events =
      [⟨"a1", "modelado", 86400, 86448, "Modeling Artist", 1152⟩] := by
    norm_num [runSim, runSteps, initState, resumeProc, loopBody, schedule, popMin, keyLt,
      ResourcePool.allocate_resource, ResourcePool.bucket, allocScan,
      ResourcePool.add_resource, ResourcePool.mkEmpty, registerResources, resolve_conflict,
      Resource.is_available, Resource.applyAssign, BusinessCalendar.is_workday, pyWeekday,
      hoursGet, dictGet, dictSet, newResource, StageDef.bid, mkEvent, allCal, cfgRepA]
  have hB : (runSim cfgRepB 10).events =
      [⟨"a1", "modelado", 1, 49, "Modeling Artist", 1152⟩] := by
    norm_num [runSim, runSteps, initState, resumeProc, loopBody, schedule, popMin, keyLt,
      ResourcePool.allocate_resource, ResourcePool.bucket, allocScan,
      ResourcePool.add_resource, ResourcePool.mkEmpty, registerResources, resolve_conflict,
      Resource.is_available, Resource.applyAssign, BusinessCalendar.is_workday, pyWeekday,
      hoursGet, dictGet, dictSet, newResource, StageDef.bid, mkEvent, allCal, cfgRepB]
  rw [hA, hB]
  intro hEq
  simp only [List.cons.injEq, ProductionEvent.mk.injEq] at hEq
  norm_num at hEq

/-- C2 amended: the simulation is a deterministic function of the inputs the
claim lists together with the construction timestamp current_date (the value
datetime.now() returned when the simulator was built) and the scheduler step
budget of the embedding: two runs agreeing on all of these produce identical
event lists. -/
theorem c2_deterministic_given_init_time (c1 c2 : SimConfig) (fuel1 fuel2 : ℕ)
    (hcal : c1.calendar = c2.calendar)
    (hwf : c1.workflow = c2.workflow)
    (hcc : c1.creative_calendar = c2.creative_calendar)
    (hcm : c1.complexity_matrix = c2.complexity_matrix)
    (hitems : c1.assets = c2.assets)
    (hcd : c1.current_date = c2.current_date)
    (hhz : c1.horizon = c2.horizon)
    (hfu : fuel1 = fuel2) :
    (runSim c1 fuel1).events = (runSim c2 fuel2).events := by
  have hc : c1 = c2 := by
    cases c1
    cases c2
    simp only at hcal hwf hcc hcm hitems hcd hhz
    simp only [SimConfig.mk.injEq]
    exact ⟨hcal, hwf, hcc, hcm, hitems, hcd, hhz⟩
  rw [hc, hfu]

/-- Witness for C2: the deterministic-run theorem applied to two literally
equal runs. -/
theorem c2_deterministic_given_init_time_witness :
    (runSim cfgRepA 10).events = (runSim cfgRepA 10).events :=
  c2_deterministic_given_init_time cfgRepA cfgRepA 10 10 rfl rfl rfl rfl rfl rfl rfl rfl

/-- C3: evaluation of the code at the failing input of the code_bug record.
The first stage of cfgC3 requires the review resource type, which has no
registered resources, so its allocation fails; resolve_conflict (whose stub
always reports a resolution) returns True, and the source then falls through
to current_stage = get_next_stage instead of re-attempting the allocation.
The run therefore completes with a single ProductionEvent — for the second
stage only: the review_stage is skipped with no event, no retry is pending,
and the next stage is allocated at the very same simulated time. -/
theorem c3_resolved_conflict_skips_stage :
    ((runSim cfgC3 20).events.map fun e => e.stage) = ["modelado"] ∧
    (runSim cfgC3 20).pending = [] := by
  have hrun : (runSim cfgC3 20).events =
      [⟨"a1", "modelado", 0, 48, "Modeling Artist", 1152⟩] := by
    norm_num [runSim, runSteps, initState, resumeProc, loopBody, schedule, popMin, keyLt,
      ResourcePool.allocate_resource, ResourcePool.bucket, allocScan,
      ResourcePool.add_resource, ResourcePool.mkEmpty, registerResources, resolve_conflict,
      Resource.is_available, Resource.applyAssign, BusinessCalendar.is_workday, pyWeekday,
      hoursGet, dictGet, dictSet, newResource, StageDef.bid, mkEvent, allCal, cfgC3]
  refine ⟨by rw [hrun]; rfl, ?_⟩
  norm_num [runSim, runSteps, initState, resumeProc, loopBody, schedule, popMin, keyLt,
    ResourcePool.allocate_resource, ResourcePool.bucket, allocScan,
    ResourcePool.add_resource, ResourcePool.mkEmpty, registerResources, resolve_conflict,
    Resource.is_available, Resource.applyAssign, BusinessCalendar.is_workday, pyWeekday,
    hoursGet, dictGet, dictSet, newResource, StageDef.bid, mkEvent, allCal, cfgC3]

end AnimTycoon
